import Mathlib

-- Shallow embedding of src/searchlaads/searchLAADS.py.
--
-- Timestamps (datetime values) are modelled as rationals counting seconds,
-- so that `(etime - stime).total_seconds()` is literally `etime - stime` and
-- `timedelta(weeks = w)` is `w * 7 * 24 * 3600` seconds.  Python float
-- arithmetic is modelled exactly over the rationals.  A ZeroDivisionError
-- (float division by zero raises in Python) and a non-terminating while loop
-- are both modelled by the value `none` of an `Option` result.

/-- The four scalar bounds of `self.bbox`.  The index order of the Python
sequence is fixed by the unpacking `north, south, west, east = self.bbox`
(searchLAADS.py line 161): `bbox[0] = north`, `bbox[1] = south`,
`bbox[2] = west`, `bbox[3] = east`. -/
structure Bbox where
  north : ℚ
  south : ℚ
  west : ℚ
  east : ℚ
deriving DecidableEq

/-- The state of a `searchLAADS` object (searchLAADS.py lines 18-38).
`stime`/`etime` are the parsed datetimes, in seconds.  `LAADSmaxFiles` is the
class attribute set to 1000 in the source (line 28); it is kept as a field so
that statements can quantify over the per-query cap. -/
structure searchLAADS where
  product : String
  collection : String
  stime : ℚ
  etime : ℚ
  bbox : Bbox
  cot : String
  dnb : String
  fileURLs : List String
  LAADSmaxFiles : ℚ
deriving DecidableEq

/-- `numTilesForBbox` (searchLAADS.py lines 41-54):
`numlat = (bbox[2] - bbox[3]) / 20`, `numlon = (bbox[0] - bbox[1]) / 20`,
returning `math.ceil(abs(numlat))*2 * math.ceil(abs(numlon))*2`. -/
def numTilesForBbox (s : searchLAADS) : ℚ :=
  let numlat := (s.bbox.west - s.bbox.east) / 20
  let numlon := (s.bbox.north - s.bbox.south) / 20
  (⌈|numlat|⌉ : ℚ) * 2 * (⌈|numlon|⌉ : ℚ) * 2

/-- `estimNumFiles` (searchLAADS.py lines 57-82):
`deltaHours = (etime - stime).total_seconds() / 3600`,
`numDaysNights = deltaHours / 12`,
`numFiles = numDaysNights * numTilesForBbox()`. -/
def estimNumFiles (s : searchLAADS) : ℚ :=
  let deltaHours := (s.etime - s.stime) / 3600
  let numDaysNights := deltaHours / 12
  numDaysNights * numTilesForBbox s

/-- One step of the `while chunkStime < self.etime` loop of `timeChunks`
(searchLAADS.py lines 112-122), with an explicit iteration budget.  Each
iteration appends `(chunkStime, chunkStime + step)` while the tentative end
stays strictly before `etime`, and otherwise the final clipped chunk
`(chunkStime, etime)`; the next iteration starts at `chunkStime + step`. -/
def chunkGo (etime step : ℚ) : Nat → ℚ → List (ℚ × ℚ)
  | 0, _ => []
  | fuel + 1, chunkStime =>
      if chunkStime < etime then
        (if chunkStime + step < etime then (chunkStime, chunkStime + step)
         else (chunkStime, etime)) :: chunkGo etime step fuel (chunkStime + step)
      else []

/-- The full while loop of `timeChunks`: for a positive `step` the loop body
runs exactly `⌈(etime - chunkStime) / step⌉` times (and `0` times when
`chunkStime ≥ etime`), so that iteration count is passed as the budget. -/
def chunkLoop (etime step chunkStime : ℚ) : List (ℚ × ℚ) :=
  chunkGo etime step (⌈(etime - chunkStime) / step⌉).toNat chunkStime

/-- `timeChunks` (searchLAADS.py lines 85-124).
`numChunks = estimNumFiles() / LAADSmaxFiles` (no ceiling, no clamping);
`chunkHours = deltaHours / numChunks` raises ZeroDivisionError when
`numChunks` is zero (modelled by `none`), as does the first division when
`LAADSmaxFiles` is zero; `chunkWeeks = math.ceil(chunkHours / (7 * 24))`;
then the while loop walks from `stime` in steps of `chunkWeeks` weeks.
When `chunkWeeks ≤ 0` and `stime < etime` the Python loop never terminates,
which is also modelled by `none`. -/
def timeChunks (s : searchLAADS) : Option (List (ℚ × ℚ)) :=
  if s.LAADSmaxFiles = 0 then none
  else
    let numChunks := estimNumFiles s / s.LAADSmaxFiles
    if numChunks = 0 then none
    else
      let deltaHours := (s.etime - s.stime) / 3600
      let chunkHours := deltaHours / numChunks
      let chunkWeeks : ℤ := ⌈chunkHours / (7 * 24)⌉
      if chunkWeeks ≤ 0 ∧ s.stime < s.etime then none
      else some (chunkLoop s.etime ((chunkWeeks : ℚ) * (7 * 24 * 3600)) s.stime)

/-- `contiguousCover s e l` states that the chunk list `l` covers `[s, e]`
exactly and contiguously: `l` is non-empty, its first chunk starts at `s`,
its last chunk ends at `e`, and each chunk's end is the next chunk's start. -/
def contiguousCover (s e : ℚ) : List (ℚ × ℚ) → Bool
  | [] => false
  | [c] => decide (c.1 = s) && decide (c.2 = e)
  | c :: c2 :: rest => decide (c.1 = s) && contiguousCover c.2 e (c2 :: rest)

/-- Modelled from the spec (section 4.1): the tile-count formula as the spec
writes it, `ceil(latSpan/20) * 2 * ceil(lonSpan/20) * 2` with
`latSpan = |north - south|` and `lonSpan = |west - east|`.  Used only to be
compared against `numTilesForBbox`. -/
def specTileCount (north south west east : ℚ) : ℚ :=
  (⌈|north - south| / 20⌉ : ℚ) * 2 * (⌈|west - east| / 20⌉ : ℚ) * 2

/-- The two remote calls used by `searchFiles` (searchLAADS.py lines 178-183):
`server.searchForFiles(product, collection, startTime, endTime, bbox,
coordsOrTiles, dayNightBoth)` and `server.getFileUrls(fileIds)`.  The
timestamp formatting of lines 173-174 is abstracted away: start and end are
passed as the timestamps themselves. -/
structure Server where
  searchForFiles : String → String → ℚ → ℚ → Bbox → String → String → List String
  getFileUrls : String → List String

/-- Python's `",".join(IDs)` (searchLAADS.py line 182). -/
def joinComma : List String → String
  | [] => ""
  | x :: rest => rest.foldl (fun acc y => acc ++ "," ++ y) x

/-- The body of the `for i in ... range(len(tchunks))` loop of `searchFiles`
(searchLAADS.py lines 172-185), processing the chunks in order.  The result
is the list of arguments passed to `getFileUrls` (one call per loop
iteration) paired with the concatenation of all returned URL lists. -/
def processChunks (srv : Server) (s : searchLAADS) :
    List (ℚ × ℚ) → List String × List String
  | [] => ([], [])
  | c :: rest =>
      let IDs := srv.searchForFiles s.product s.collection c.1 c.2 s.bbox s.cot s.dnb
      let IDsFilestring := joinComma IDs
      let URLs := srv.getFileUrls IDsFilestring
      let r := processChunks srv s rest
      (IDsFilestring :: r.1, URLs ++ r.2)

/-- `searchFiles` (searchLAADS.py lines 143-188): computes `timeChunks()`
(propagating its failure), loops over the chunks calling `searchForFiles`
and then — unconditionally — `getFileUrls`, and appends every returned URL
list to `self.fileURLs`.  The first component of the result records the
argument of each `getFileUrls` call, the second the updated object state. -/
def searchFiles (srv : Server) (s : searchLAADS) :
    Option (List String × searchLAADS) :=
  (timeChunks s).map fun tchunks =>
    let r := processChunks srv s tchunks
    (r.1, { s with fileURLs := s.fileURLs ++ r.2 })

/-- The three observable outcomes of `dumpURLs`: the no-URLs message, the
file-exists message, or an actual write. -/
inductive DumpOutcome where
  | noURLs : DumpOutcome
  | conflict : DumpOutcome
  | wrote : DumpOutcome
deriving DecidableEq

/-- The file body written by `dumpURLs`: each URL followed by a newline
(searchLAADS.py lines 212-214). -/
def urlLines : List String → String
  | [] => ""
  | u :: rest => u ++ "\n" ++ urlLines rest

/-- `dumpURLs` (searchLAADS.py lines 191-216) over an explicit file system,
modelled as a map from path to file contents.  If `len(fileURLs) < 1` only a
message is printed; else if the file exists and `replace` is not set
(`os.path.isfile(fname) & (not replace)`) only a message is printed; else the
file `fname` is (over)written with the URL lines. -/
def dumpURLs (fs : String → Option String) (s : searchLAADS)
    (fname : String) (replace : Bool) :
    DumpOutcome × (String → Option String) :=
  if s.fileURLs.length < 1 then (DumpOutcome.noURLs, fs)
  else if (fs fname).isSome && !replace then (DumpOutcome.conflict, fs)
  else (DumpOutcome.wrote,
        fun p => if p = fname then some (urlLines s.fileURLs) else fs p)

-- Concrete sessions used by witnesses and counterexamples.

/-- A session whose extent is a degenerate line (north = south), over one day. -/
def cexC1 : searchLAADS :=
  { product := "MOD35_L2", collection := "61", stime := 0, etime := 86400,
    bbox := { north := 20, south := 20, west := -100, east := -80 },
    cot := "coords", dnb := "DNB", fileURLs := [], LAADSmaxFiles := 1000 }

/-- A two-week session over a large extent (144 tiles), giving two one-week chunks. -/
def wC1 : searchLAADS :=
  { product := "MOD35_L2", collection := "61", stime := 0, etime := 1209600,
    bbox := { north := 40, south := 20, west := -100, east := -80 },
    cot := "coords", dnb := "DNB", fileURLs := [], LAADSmaxFiles := 1000 }

/-- A zero-width session: start equals end. -/
def cexC2 : searchLAADS :=
  { product := "MOD35_L2", collection := "61", stime := 0, etime := 0,
    bbox := { north := 40, south := 20, west := -100, east := -80 },
    cot := "coords", dnb := "DNB", fileURLs := [], LAADSmaxFiles := 1000 }

/-- Another zero-width session, for the amended-claim witness. -/
def wC2 : searchLAADS :=
  { product := "MYD35_L2", collection := "61", stime := 3600, etime := 3600,
    bbox := { north := 40, south := 20, west := -100, east := -80 },
    cot := "coords", dnb := "DNB", fileURLs := [], LAADSmaxFiles := 1000 }

/-- A degenerate-extent session (west = east) over two days: file estimate 0. -/
def cexC3 : searchLAADS :=
  { product := "MOD35_L2", collection := "61", stime := 0, etime := 172800,
    bbox := { north := 40, south := 20, west := -100, east := -100 },
    cot := "coords", dnb := "DNB", fileURLs := [], LAADSmaxFiles := 1000 }

/-- A degenerate-extent session (north = south) over half a day. -/
def wC3 : searchLAADS :=
  { product := "MYD35_L2", collection := "61", stime := 0, etime := 43200,
    bbox := { north := -10, south := -10, west := 0, east := 40 },
    cot := "coords", dnb := "DNB", fileURLs := [], LAADSmaxFiles := 1000 }

/-- A reversed session: end one day before start. -/
def cexC4 : searchLAADS :=
  { product := "MOD35_L2", collection := "61", stime := 86400, etime := 0,
    bbox := { north := 40, south := 20, west := -100, east := -80 },
    cot := "coords", dnb := "DNB", fileURLs := [], LAADSmaxFiles := 1000 }

/-- Another reversed session: end one week before start. -/
def wC4 : searchLAADS :=
  { product := "MYD35_L2", collection := "61", stime := 604800, etime := 0,
    bbox := { north := 40, south := 20, west := -100, east := -80 },
    cot := "coords", dnb := "DNB", fileURLs := [], LAADSmaxFiles := 1000 }

/-- The concrete extent scenario of the spec: north 40, south 20, west -100,
east -80. -/
def exC5 : searchLAADS :=
  { product := "MOD35_L2", collection := "61", stime := 0, etime := 5097600,
    bbox := { north := 40, south := 20, west := -100, east := -80 },
    cot := "coords", dnb := "DNB", fileURLs := [], LAADSmaxFiles := 1000 }

/-- A two-week session over a 144-tile extent: chunk width one week, two chunks. -/
def wC7 : searchLAADS :=
  { product := "MOD35_L2", collection := "61", stime := 0, etime := 1209600,
    bbox := { north := 90, south := -90, west := -40, east := 40 },
    cot := "coords", dnb := "DNB", fileURLs := [], LAADSmaxFiles := 1000 }

-- Helper lemmas about the loop embedding.

theorem chunkGo_nil (etime step cur : ℚ) (h : ¬ cur < etime) (n : Nat) :
    chunkGo etime step n cur = [] := by
  cases n with
  | zero => rfl
  | succ m => simp [chunkGo, h]

theorem chunkLoop_nil (etime step cur : ℚ) (h : ¬ cur < etime) :
    chunkLoop etime step cur = [] :=
  chunkGo_nil etime step cur h _

theorem chunkGo_covers (etime step : ℚ) (hstep : 0 < step) :
    ∀ (n : Nat) (cur : ℚ), cur < etime → (⌈(etime - cur) / step⌉).toNat ≤ n →
      contiguousCover cur etime (chunkGo etime step n cur) = true := by
  intro n
  induction n with
  | zero =>
      intro cur hce hfuel
      exfalso
      have h1 : (0 : ℤ) < ⌈(etime - cur) / step⌉ :=
        Int.ceil_pos.mpr (div_pos (sub_pos.mpr hce) hstep)
      omega
  | succ n ih =>
      intro cur hce hfuel
      have hstep0 : step ≠ 0 := ne_of_gt hstep
      have hceil : ⌈(etime - (cur + step)) / step⌉ = ⌈(etime - cur) / step⌉ - 1 := by
        have heq : (etime - (cur + step)) / step = (etime - cur) / step - 1 := by
          field_simp
          ring
        rw [heq, Int.ceil_sub_one]
      simp only [chunkGo, if_pos hce]
      by_cases hlt : cur + step < etime
      · have htail := ih (cur + step) hlt (by omega)
        rw [if_pos hlt]
        cases htg : chunkGo etime step n (cur + step) with
        | nil => rw [htg] at htail; simp [contiguousCover] at htail
        | cons hd tl =>
            rw [htg] at htail
            simp only [contiguousCover]
            simp [htail]
      · rw [if_neg hlt, chunkGo_nil etime step (cur + step) hlt n]
        simp [contiguousCover]

theorem chunkLoop_covers (etime step cur : ℚ) (hstep : 0 < step) (hce : cur < etime) :
    contiguousCover cur etime (chunkLoop etime step cur) = true :=
  chunkGo_covers etime step hstep _ cur hce le_rfl

theorem chunkGo_width (etime step : ℚ) :
    ∀ (n : Nat) (cur : ℚ), ∀ c ∈ (chunkGo etime step n cur).dropLast,
      c.2 - c.1 = step := by
  intro n
  induction n with
  | zero => intro cur c hc; simp [chunkGo] at hc
  | succ n ih =>
      intro cur c hc
      by_cases hce : cur < etime
      · simp only [chunkGo, if_pos hce] at hc
        by_cases hlt : cur + step < etime
        · rw [if_pos hlt] at hc
          cases htg : chunkGo etime step n (cur + step) with
          | nil => rw [htg] at hc; simp at hc
          | cons hd tl =>
              rw [htg, List.dropLast_cons₂, List.mem_cons] at hc
              rcases hc with hc | hc
              · rw [hc]; ring
              · have := ih (cur + step) c
                rw [htg] at this
                exact this hc
        · rw [if_neg hlt, chunkGo_nil etime step (cur + step) hlt n] at hc
          simp at hc
      · rw [chunkGo_nil etime step cur hce] at hc
        simp at hc

theorem numTilesForBbox_nonneg (s : searchLAADS) : 0 ≤ numTilesForBbox s := by
  simp only [numTilesForBbox]
  have h1 : (0 : ℚ) ≤ (⌈|(s.bbox.west - s.bbox.east) / 20|⌉ : ℚ) := by
    exact_mod_cast Int.ceil_nonneg (abs_nonneg _)
  have h2 : (0 : ℚ) ≤ (⌈|(s.bbox.north - s.bbox.south) / 20|⌉ : ℚ) := by
    exact_mod_cast Int.ceil_nonneg (abs_nonneg _)
  have h3 : (0 : ℚ) ≤ 2 := by norm_num
  exact mul_nonneg (mul_nonneg (mul_nonneg h1 h3) h2) h3

-- Claim C1.

/-- C1 (amended): for every session whose TimeRange has start strictly before
end, whose cap is positive, and whose extent has a positive tile estimate,
`timeChunks` returns an ordered chunk list that covers the input range exactly
and contiguously: the first chunk starts at the range start, consecutive
chunks share a boundary, and the last chunk ends at the range end. -/
theorem timeChunks_covers (s : searchLAADS) (hlt : s.stime < s.etime)
    (hcap : 0 < s.LAADSmaxFiles) (htiles : 0 < numTilesForBbox s) :
    ∃ l, timeChunks s = some l ∧ contiguousCover s.stime s.etime l = true := by
  have hmax : ¬ s.LAADSmaxFiles = 0 := ne_of_gt hcap
  have hdelta : (0 : ℚ) < (s.etime - s.stime) / 3600 :=
    div_pos (sub_pos.mpr hlt) (by norm_num)
  have hest : 0 < estimNumFiles s := by
    simp only [estimNumFiles]
    exact mul_pos (div_pos hdelta (by norm_num)) htiles
  have hnum : (0 : ℚ) < estimNumFiles s / s.LAADSmaxFiles := div_pos hest hcap
  have hcw : (0 : ℤ) <
      ⌈(s.etime - s.stime) / 3600 / (estimNumFiles s / s.LAADSmaxFiles) / (7 * 24)⌉ :=
    Int.ceil_pos.mpr (div_pos (div_pos hdelta hnum) (by norm_num))
  have hstep : (0 : ℚ) <
      (⌈(s.etime - s.stime) / 3600 / (estimNumFiles s / s.LAADSmaxFiles) / (7 * 24)⌉ : ℚ)
        * (7 * 24 * 3600) := by
    have hq : (0 : ℚ) <
        (⌈(s.etime - s.stime) / 3600 / (estimNumFiles s / s.LAADSmaxFiles) / (7 * 24)⌉ : ℚ) := by
      exact_mod_cast hcw
    exact mul_pos hq (by norm_num)
  refine ⟨_, ?_, chunkLoop_covers s.etime _ s.stime hstep hlt⟩
  simp only [timeChunks, if_neg hmax, if_neg (ne_of_gt hnum)]
  rw [if_neg (fun hand => absurd hcw (not_lt.mpr hand.1))]

/-- C1 witness: the covering theorem applied to the concrete session wC1. -/
theorem timeChunks_covers_witness :
    wC1.stime < wC1.etime ∧ 0 < wC1.LAADSmaxFiles ∧ 0 < numTilesForBbox wC1
      ∧ ∃ l, timeChunks wC1 = some l ∧ contiguousCover wC1.stime wC1.etime l = true := by
  have h1 : wC1.stime < wC1.etime := by norm_num [wC1]
  have h2 : (0 : ℚ) < wC1.LAADSmaxFiles := by norm_num [wC1]
  have h3 : (0 : ℚ) < numTilesForBbox wC1 := by norm_num [numTilesForBbox, wC1]
  exact ⟨h1, h2, h3, timeChunks_covers wC1 h1 h2 h3⟩

/-- C1 counterexample: cexC1 has start strictly before end and a positive cap,
but its extent tile estimate is 0, so `timeChunks` fails with a division by
zero and returns no chunk list at all — in particular no covering one. -/
theorem timeChunks_covers_cex :
    cexC1.stime < cexC1.etime ∧ 0 < cexC1.LAADSmaxFiles ∧ timeChunks cexC1 = none := by
  refine ⟨by norm_num [cexC1], by norm_num [cexC1], ?_⟩
  have he : estimNumFiles cexC1 = 0 := by
    norm_num [estimNumFiles, numTilesForBbox, cexC1]
  simp only [timeChunks, he]
  norm_num [cexC1]

-- Claim C2.

/-- C2 (amended): for every session whose TimeRange has start equal to end,
the file estimate is zero, so the chunk count is zero and `timeChunks` fails
with a division-by-zero error instead of returning a single zero-width
chunk. -/
theorem timeChunks_zeroWidth (s : searchLAADS) (h : s.stime = s.etime) :
    timeChunks s = none := by
  have he : estimNumFiles s = 0 := by
    simp only [estimNumFiles, h]
    simp
  rcases eq_or_ne s.LAADSmaxFiles 0 with h0 | h0
  · simp only [timeChunks, if_pos h0]
  · simp only [timeChunks, if_neg h0, he]
    simp

/-- C2 witness: the zero-width theorem applied to the concrete session wC2. -/
theorem timeChunks_zeroWidth_witness :
    wC2.stime = wC2.etime ∧ timeChunks wC2 = none :=
  ⟨rfl, timeChunks_zeroWidth wC2 rfl⟩

/-- C2 counterexample: cexC2 has start equal to end, yet `timeChunks` returns
no chunk list at all (division by zero), not a single zero-width chunk. -/
theorem timeChunks_zeroWidth_cex :
    cexC2.stime = cexC2.etime ∧ timeChunks cexC2 = none := by
  refine ⟨rfl, ?_⟩
  have he : estimNumFiles cexC2 = 0 := by
    norm_num [estimNumFiles, cexC2]
  simp only [timeChunks, he]
  norm_num [cexC2]

-- Claim C3.

/-- C3 (amended): `timeChunks` never clamps the chunk count.  With a positive
cap, a file estimate of exactly zero makes it fail with a division-by-zero
error (surfaced to the caller), while a negative estimate (reversed range)
completes normally with an empty chunk list. -/
theorem timeChunks_degenerate (s : searchLAADS) (hcap : 0 < s.LAADSmaxFiles)
    (hest : estimNumFiles s ≤ 0) :
    timeChunks s = if estimNumFiles s = 0 then none else some [] := by
  have hmax : ¬ s.LAADSmaxFiles = 0 := ne_of_gt hcap
  rcases hest.lt_or_eq with hneg | heq
  · rw [if_neg (ne_of_lt hneg)]
    have hns : ¬ estimNumFiles s / s.LAADSmaxFiles = 0 :=
      ne_of_lt (div_neg_of_neg_of_pos hneg hcap)
    have hnlt : ¬ s.stime < s.etime := by
      intro hlt
      have hdelta : (0 : ℚ) < (s.etime - s.stime) / 3600 :=
        div_pos (sub_pos.mpr hlt) (by norm_num)
      have hnn : 0 ≤ estimNumFiles s := by
        simp only [estimNumFiles]
        exact mul_nonneg (le_of_lt (div_pos hdelta (by norm_num)))
          (numTilesForBbox_nonneg s)
      linarith
    simp only [timeChunks, if_neg hmax, if_neg hns]
    rw [if_neg (fun hand => hnlt hand.2)]
    rw [chunkLoop_nil _ _ _ hnlt]
  · rw [if_pos heq]
    simp only [timeChunks, if_neg hmax, heq]
    simp

/-- C3 witness: the degenerate-estimate theorem applied to the concrete
session wC3 (zero-area extent, estimate 0). -/
theorem timeChunks_degenerate_witness :
    0 < wC3.LAADSmaxFiles ∧ estimNumFiles wC3 ≤ 0
      ∧ timeChunks wC3 = if estimNumFiles wC3 = 0 then none else some [] := by
  have h1 : (0 : ℚ) < wC3.LAADSmaxFiles := by norm_num [wC3]
  have h2 : estimNumFiles wC3 ≤ 0 := by
    norm_num [estimNumFiles, numTilesForBbox, wC3]
  exact ⟨h1, h2, timeChunks_degenerate wC3 h1 h2⟩

/-- C3 counterexample: cexC3 has a zero-area extent over a positive time
range, so the file estimate is 0; instead of clamping the chunk count to 1
and completing normally, `timeChunks` fails with a division-by-zero error. -/
theorem timeChunks_degenerate_cex :
    estimNumFiles cexC3 = 0 ∧ timeChunks cexC3 = none := by
  have he : estimNumFiles cexC3 = 0 := by
    norm_num [estimNumFiles, numTilesForBbox, cexC3]
  refine ⟨he, ?_⟩
  simp only [timeChunks, he]
  norm_num [cexC3]

-- Claim C4.

/-- C4 (amended): for every session whose TimeRange has end strictly before
start, with a positive cap and a positive tile estimate, `timeChunks` performs
no range validation and surfaces no error: it completes normally and returns
an empty chunk list. -/
theorem timeChunks_reversed (s : searchLAADS) (hrev : s.etime < s.stime)
    (hcap : 0 < s.LAADSmaxFiles) (htiles : 0 < numTilesForBbox s) :
    timeChunks s = some [] := by
  have hmax : ¬ s.LAADSmaxFiles = 0 := ne_of_gt hcap
  have hdelta : (s.etime - s.stime) / 3600 < 0 :=
    div_neg_of_neg_of_pos (sub_neg.mpr hrev) (by norm_num)
  have hest : estimNumFiles s < 0 := by
    simp only [estimNumFiles]
    exact mul_neg_of_neg_of_pos (div_neg_of_neg_of_pos hdelta (by norm_num)) htiles
  have hns : ¬ estimNumFiles s / s.LAADSmaxFiles = 0 :=
    ne_of_lt (div_neg_of_neg_of_pos hest hcap)
  have hnlt : ¬ s.stime < s.etime := not_lt.mpr (le_of_lt hrev)
  simp only [timeChunks, if_neg hmax, if_neg hns]
  rw [if_neg (fun hand => hnlt hand.2)]
  rw [chunkLoop_nil _ _ _ hnlt]

/-- C4 witness: the reversed-range theorem applied to the concrete session
wC4. -/
theorem timeChunks_reversed_witness :
    wC4.etime < wC4.stime ∧ 0 < wC4.LAADSmaxFiles ∧ 0 < numTilesForBbox wC4
      ∧ timeChunks wC4 = some [] := by
  have h1 : wC4.etime < wC4.stime := by norm_num [wC4]
  have h2 : (0 : ℚ) < wC4.LAADSmaxFiles := by norm_num [wC4]
  have h3 : (0 : ℚ) < numTilesForBbox wC4 := by norm_num [numTilesForBbox, wC4]
  exact ⟨h1, h2, h3, timeChunks_reversed wC4 h1 h2 h3⟩

/-- C4 counterexample: cexC4 has end strictly before start, yet `timeChunks`
surfaces no error and does produce a chunk list (the empty one). -/
theorem timeChunks_reversed_cex :
    cexC4.etime < cexC4.stime ∧ timeChunks cexC4 = some [] := by
  refine ⟨by norm_num [cexC4], ?_⟩
  have ht : numTilesForBbox cexC4 = 4 := by norm_num [numTilesForBbox, cexC4]
  have he : estimNumFiles cexC4 = -8 := by
    simp only [estimNumFiles, ht]
    norm_num [cexC4]
  have hns : ¬ estimNumFiles cexC4 / cexC4.LAADSmaxFiles = 0 := by
    rw [he]
    norm_num [cexC4]
  have hnlt : ¬ cexC4.stime < cexC4.etime := by norm_num [cexC4]
  have hmax : ¬ cexC4.LAADSmaxFiles = 0 := by norm_num [cexC4]
  simp only [timeChunks, if_neg hmax, if_neg hns]
  rw [if_neg (fun hand => hnlt hand.2)]
  rw [chunkLoop_nil _ _ _ hnlt]

-- Claim C5.

/-- C5: for every session, `numTilesForBbox` returns exactly the spec formula
`ceil(|north - south| / 20) * 2 * ceil(|west - east| / 20) * 2`, and on the
concrete extent north 40, south 20, west -100, east -80 it returns 4. -/
theorem numTilesForBbox_formula :
    (∀ s : searchLAADS,
      numTilesForBbox s
        = specTileCount s.bbox.north s.bbox.south s.bbox.west s.bbox.east)
    ∧ numTilesForBbox exC5 = 4 := by
  constructor
  · intro s
    have h20 : |(20 : ℚ)| = 20 := by norm_num
    simp only [numTilesForBbox, specTileCount]
    rw [abs_div, abs_div, h20]
    ring
  · norm_num [numTilesForBbox, exC5]

-- Claim C6.

/-- C6: for every session, `numTilesForBbox` is non-negative, and it is
unchanged when the north and south bounds are swapped, or when the west and
east bounds are swapped. -/
theorem numTilesForBbox_swap (s : searchLAADS) :
    0 ≤ numTilesForBbox s
    ∧ numTilesForBbox
        { s with bbox := { s.bbox with north := s.bbox.south, south := s.bbox.north } }
        = numTilesForBbox s
    ∧ numTilesForBbox
        { s with bbox := { s.bbox with west := s.bbox.east, east := s.bbox.west } }
        = numTilesForBbox s := by
  have key : ∀ a b : ℚ, |(a - b) / 20| = |(b - a) / 20| := by
    intro a b
    rw [abs_div, abs_div, abs_sub_comm]
  refine ⟨numTilesForBbox_nonneg s, ?_, ?_⟩
  · simp only [numTilesForBbox]
    rw [key s.bbox.south s.bbox.north]
  · simp only [numTilesForBbox]
    rw [key s.bbox.east s.bbox.west]

-- Claim C7.

/-- C7: for every session with start strictly before end and a positive file
estimate, every chunk of the `timeChunks` output except possibly the last has
a width that is an exact integer multiple of one week (168 hours, here in
seconds). -/
theorem timeChunks_weekMultiple (s : searchLAADS) (hlt : s.stime < s.etime)
    (hest : 0 < estimNumFiles s) (l : List (ℚ × ℚ)) (hl : timeChunks s = some l) :
    ∀ c ∈ l.dropLast, ∃ k : ℤ, c.2 - c.1 = (k : ℚ) * (168 * 3600) := by
  simp only [timeChunks] at hl
  split at hl
  · exact absurd hl (by simp)
  · split at hl
    · exact absurd hl (by simp)
    · split at hl
      · exact absurd hl (by simp)
      · injection hl with hl
        subst hl
        intro c hc
        simp only [chunkLoop] at hc
        refine ⟨⌈(s.etime - s.stime) / 3600 / (estimNumFiles s / s.LAADSmaxFiles) / (7 * 24)⌉, ?_⟩
        rw [chunkGo_width s.etime _ _ s.stime c hc]
        norm_num

/-- C7 witness: the week-multiple theorem applied to the two-chunk session
wC7 and its first chunk, of width exactly one week. -/
theorem timeChunks_weekMultiple_witness :
    wC7.stime < wC7.etime ∧ 0 < estimNumFiles wC7
      ∧ timeChunks wC7 = some [((0 : ℚ), 604800), (604800, 1209600)]
      ∧ ∃ k : ℤ, ((0 : ℚ), (604800 : ℚ)).2 - ((0 : ℚ), (604800 : ℚ)).1
          = (k : ℚ) * (168 * 3600) := by
  have ht : numTilesForBbox wC7 = 144 := by norm_num [numTilesForBbox, wC7]
  have he : estimNumFiles wC7 = 4032 := by
    simp only [estimNumFiles, ht]
    norm_num [wC7]
  have hc : (⌈(125/252 : ℚ)⌉ : ℤ) = 1 := by
    rw [Int.ceil_eq_iff]
    norm_num
  have hl : timeChunks wC7 = some [((0 : ℚ), 604800), (604800, 1209600)] := by
    simp only [timeChunks, he]
    norm_num [wC7, chunkLoop, chunkGo, hc, Int.toNat_ofNat]
  have h1 : wC7.stime < wC7.etime := by norm_num [wC7]
  have h2 : (0 : ℚ) < estimNumFiles wC7 := by rw [he]; norm_num
  refine ⟨h1, h2, hl, ?_⟩
  exact timeChunks_weekMultiple wC7 h1 h2 _ hl ((0 : ℚ), (604800 : ℚ)) (by simp)

-- Claim C8.

theorem processChunks_fst (srv : Server) (s : searchLAADS) :
    ∀ l : List (ℚ × ℚ), (processChunks srv s l).1
      = l.map (fun c =>
          joinComma (srv.searchForFiles s.product s.collection c.1 c.2 s.bbox s.cot s.dnb)) := by
  intro l
  induction l with
  | nil => rfl
  | cons c rest ih => simp [processChunks, ih]

/-- C8 (amended): for every chunk processed by `searchFiles`, the
URL-resolution collaborator `getFileUrls` is called exactly once,
unconditionally: once per chunk, with the comma-joined identifier batch of
that chunk — which is the empty string whenever the search collaborator
returned zero identifiers. -/
theorem searchFiles_resolveCalls (srv : Server) (s : searchLAADS)
    (l : List (ℚ × ℚ)) (hl : timeChunks s = some l)
    (r : List String × searchLAADS) (hr : searchFiles srv s = some r) :
    r.1 = l.map (fun c =>
      joinComma (srv.searchForFiles s.product s.collection c.1 c.2 s.bbox s.cot s.dnb)) := by
  simp only [searchFiles, hl, Option.map_some'] at hr
  injection hr with hr
  subst hr
  exact processChunks_fst srv s l

/-- A server stub whose search always returns zero identifiers and whose
URL-resolution call always returns no URLs. -/
def srvC8 : Server :=
  { searchForFiles := fun _ _ _ _ _ _ _ => [], getFileUrls := fun _ => [] }

/-- A one-week, 144-tile session: `timeChunks` returns the single chunk
(0, 604800). -/
def cexC8 : searchLAADS :=
  { product := "MOD35_L2", collection := "61", stime := 0, etime := 604800,
    bbox := { north := 90, south := -90, west := -40, east := 40 },
    cot := "coords", dnb := "DNB", fileURLs := [], LAADSmaxFiles := 1000 }

/-- A server stub returning two identifiers for every search and one URL per
resolve call. -/
def srvW8 : Server :=
  { searchForFiles := fun _ _ _ _ _ _ _ => ["a", "b"], getFileUrls := fun _ => ["u"] }

/-- Another one-week, 144-tile session for the C8 witness. -/
def wC8 : searchLAADS :=
  { product := "MYD35_L2", collection := "61", stime := 0, etime := 604800,
    bbox := { north := 90, south := -90, west := -40, east := 40 },
    cot := "coords", dnb := "DNB", fileURLs := [], LAADSmaxFiles := 1000 }

/-- C8 counterexample: the search stub returns zero identifiers for the only
chunk of cexC8, yet `searchFiles` still makes one URL-resolution call for
that chunk, passing the empty identifier string. -/
theorem searchFiles_resolveCalls_cex :
    srvC8.searchForFiles cexC8.product cexC8.collection 0 604800 cexC8.bbox
        cexC8.cot cexC8.dnb = []
    ∧ (searchFiles srvC8 cexC8).map Prod.fst = some [""] := by
  constructor
  · rfl
  · have ht : numTilesForBbox cexC8 = 144 := by norm_num [numTilesForBbox, cexC8]
    have he : estimNumFiles cexC8 = 2016 := by
      simp only [estimNumFiles, ht]
      norm_num [cexC8]
    have hc : (⌈(125/252 : ℚ)⌉ : ℤ) = 1 := by
      rw [Int.ceil_eq_iff]
      norm_num
    have hl : timeChunks cexC8 = some [((0 : ℚ), 604800)] := by
      simp only [timeChunks, he]
      norm_num [cexC8, chunkLoop, chunkGo, hc, Int.toNat_one]
    simp [searchFiles, hl, processChunks, joinComma, srvC8]

/-- C8 witness: the amended theorem applied to the stub srvW8 and the
one-chunk session wC8: the single resolve call carries the joined batch
"a,b". -/
theorem searchFiles_resolveCalls_witness :
    timeChunks wC8 = some [((0 : ℚ), 604800)]
    ∧ (["a,b"] : List String) = [((0 : ℚ), (604800 : ℚ))].map (fun c =>
        joinComma (srvW8.searchForFiles wC8.product wC8.collection c.1 c.2
          wC8.bbox wC8.cot wC8.dnb)) := by
  have ht : numTilesForBbox wC8 = 144 := by norm_num [numTilesForBbox, wC8]
  have he : estimNumFiles wC8 = 2016 := by
    simp only [estimNumFiles, ht]
    norm_num [wC8]
  have hc : (⌈(125/252 : ℚ)⌉ : ℤ) = 1 := by
    rw [Int.ceil_eq_iff]
    norm_num
  have hl : timeChunks wC8 = some [((0 : ℚ), 604800)] := by
    simp only [timeChunks, he]
    norm_num [wC8, chunkLoop, chunkGo, hc, Int.toNat_one]
  have hr : searchFiles srvW8 wC8 = some (["a,b"], { wC8 with fileURLs := ["u"] }) := by
    simp only [searchFiles, hl, Option.map_some']
    simp [processChunks, joinComma, srvW8, wC8]
  exact ⟨hl, searchFiles_resolveCalls srvW8 wC8 _ hl _ hr⟩

-- Claim C9.

/-- C9: with a non-empty accumulated URL list, an existing target file, and
the replace flag unset, `dumpURLs` reports the conflict and leaves the whole
file system — in particular the existing file's contents — unchanged. -/
theorem dumpURLs_conflict (fs : String → Option String) (s : searchLAADS)
    (fname contents : String) (hne : s.fileURLs ≠ [])
    (hex : fs fname = some contents) :
    dumpURLs fs s fname false = (DumpOutcome.conflict, fs) := by
  have hlen : ¬ s.fileURLs.length < 1 := by
    simpa [Nat.lt_one_iff, List.length_eq_zero] using hne
  simp only [dumpURLs, if_neg hlen, hex]
  simp

/-- The file system used by the dumpURLs witnesses: one existing file. -/
def fsC9 : String → Option String :=
  fun p => if p = "out.txt" then some "old" else none

/-- A session holding one resolved URL. -/
def wC9 : searchLAADS :=
  { product := "MOD35_L2", collection := "61", stime := 0, etime := 604800,
    bbox := { north := 40, south := 20, west := -100, east := -80 },
    cot := "coords", dnb := "DNB", fileURLs := ["http://u1"], LAADSmaxFiles := 1000 }

/-- C9 witness: the conflict theorem applied to concrete inputs. -/
theorem dumpURLs_conflict_witness :
    wC9.fileURLs ≠ [] ∧ fsC9 ("out.txt") = some ("old")
      ∧ dumpURLs fsC9 wC9 ("out.txt") false = (DumpOutcome.conflict, fsC9) := by
  have h1 : wC9.fileURLs ≠ [] := by simp [wC9]
  have h2 : fsC9 ("out.txt") = some ("old") := by simp [fsC9]
  exact ⟨h1, h2, dumpURLs_conflict fsC9 wC9 ("out.txt") ("old") h1 h2⟩

-- Claim C10.

/-- C10: with an empty accumulated URL list, `dumpURLs` performs no
file-system write at all — the file system is returned unchanged — for every
target path and every value of the replace flag. -/
theorem dumpURLs_empty (fs : String → Option String) (s : searchLAADS)
    (fname : String) (replace : Bool) (h : s.fileURLs = []) :
    dumpURLs fs s fname replace = (DumpOutcome.noURLs, fs) := by
  simp [dumpURLs, h]

/-- A session with no accumulated URLs. -/
def wC10 : searchLAADS :=
  { product := "MOD35_L2", collection := "61", stime := 0, etime := 604800,
    bbox := { north := 40, south := 20, west := -100, east := -80 },
    cot := "coords", dnb := "DNB", fileURLs := [], LAADSmaxFiles := 1000 }

/-- C10 witness: the no-write theorem applied to concrete inputs, with the
target path existing and the replace flag set. -/
theorem dumpURLs_empty_witness :
    wC10.fileURLs = []
      ∧ dumpURLs fsC9 wC10 ("out.txt") true = (DumpOutcome.noURLs, fsC9) :=
  ⟨rfl, dumpURLs_empty fsC9 wC10 ("out.txt") true rfl⟩
